import Mathlib

/-!
Shallow embedding of `arrow/src/array/equal.rs`: structural equality for
columnar, nullable, zero-copy arrays, plus JSON reference-value equality.

Buffers are modelled as `List Nat` (bytes).  Explicit panics in the source
(`assert!`, failed `downcast_ref().unwrap()`, `unimplemented!`, failed
`Option::unwrap`, out-of-bounds column indexing) are modelled as values of
`PanicKind` in an `Except`; plain byte reads out of range are modelled with
defaulting reads (`List.getD`), which the source never relies on for
well-formed arrays.
-/

namespace ArrowEqual

/-- Arrow data type tags, as compared by `base_equal` (`this.data_type() != other.data_type()`).
Float and temporal types are omitted; struct fields are reduced to their names. -/
inductive DataType : Type where
  | boolean
  | int8 | int16 | int32 | int64
  | uint8 | uint16 | uint32 | uint64
  | utf8 | largeUtf8
  | binaryT | largeBinary
  | fixedSizeBinaryT (n : Nat)
  | listT (t : DataType)
  | largeListT (t : DataType)
  | fixedSizeListT (t : DataType) (n : Nat)
  | structT (fields : List String)
  | dictionaryT (k : DataType) (v : DataType)
  | unionT
  | nullT
deriving DecidableEq, Repr

/-- The distinct abrupt-termination behaviours of the source. -/
inductive PanicKind : Type where
  | assertFail      -- a failed `assert!`
  | downcastFail    -- `as_any().downcast_ref::<..>().unwrap()` on the wrong concrete type
  | unimplementedOp -- `unimplemented!`
  | unwrapFail      -- failed `Option::unwrap` / `Result::unwrap`
  | indexOOB        -- out-of-bounds index panic (e.g. `other.column(k)` with too few columns)
deriving DecidableEq, Repr

/-- Result of a comparison: a boolean, or a panic. -/
abbrev Res (α : Type) : Type := Except PanicKind α

instance : DecidableEq (Res Bool) := fun a b =>
  match a, b with
  | .ok x, .ok y =>
      if h : x = y then isTrue (by rw [h]) else isFalse (by simp [h])
  | .error x, .error y =>
      if h : x = y then isTrue (by rw [h]) else isFalse (by simp [h])
  | .ok _, .error _ => isFalse (by simp)
  | .error _, .ok _ => isFalse (by simp)

/-- `bit_util::get_bit(data, i)`: test bit `i` (LSB-first within each byte). -/
def getBit (buf : List Nat) (i : Nat) : Bool :=
  (buf.getD (i / 8) 0) / 2 ^ (i % 8) % 2 = 1

/-- Rust slice `buf[s..s+n]`, modelled with truncation instead of a bounds panic. -/
def sliceList (buf : List Nat) (s n : Nat) : List Nat :=
  (buf.drop s).take n

/-- Little-endian decoding of `w` bytes of `buf` starting at byte `pos`, as used by
the typed offset views (`value_offset`) over an offsets buffer. -/
def decodeLE (buf : List Nat) (pos w : Nat) : Nat :=
  (sliceList buf pos w).foldr (fun b acc => b + 256 * acc) 0

/-- Two's-complement reinterpretation of a `w`-byte little-endian value. -/
def asSigned (w n : Nat) : Int :=
  if n < 2 ^ (8 * w - 1) then (n : Int) else (n : Int) - 2 ^ (8 * w)

/-- Byte width of a fixed-width primitive type: `T::get_bit_width() / 8`
(0 for boolean and for non-primitive tags, which never reach the fixed-width path). -/
def DataType.byteWidth : DataType → Nat
  | .int8 => 1 | .int16 => 2 | .int32 => 4 | .int64 => 8
  | .uint8 => 1 | .uint16 => 2 | .uint32 => 4 | .uint64 => 8
  | _ => 0

/-- Whether the primitive type is a signed integer (for JSON value conversion). -/
def DataType.isSigned : DataType → Bool
  | .int8 | .int16 | .int32 | .int64 => true
  | _ => false

/-- A short-circuiting counted loop in the panic monad: run `f` at `s, s+1, ...`
(`n` iterations); stop at the first `false` or panic, yielding `true` if all pass.
Mirrors a Rust `for` loop that `return false`s on failure. -/
def forRangeM (s n : Nat) (f : Nat → Res Bool) : Res Bool :=
  match n with
  | 0 => .ok true
  | m + 1 =>
    match f s with
    | .error e => .error e
    | .ok false => .ok false
    | .ok true => forRangeM (s + 1) m f

/-- A short-circuiting loop over a list in the panic monad. -/
def forListM {α : Type} : List α → (α → Res Bool) → Res Bool
  | [], _ => .ok true
  | x :: xs, f =>
    match f x with
    | .error e => .error e
    | .ok false => .ok false
    | .ok true => forListM xs f

/-- Modelled from the spec: the common logical fields of `ArrayData` read by this
core — type tag, logical length, logical offset, null count, and the optional
bit-packed null bitmap covering the entire underlying buffer. -/
structure ArrayCommon : Type where
  dataType : DataType
  len : Nat
  offset : Nat
  nullCount : Nat
  nullBitmap : Option (List Nat)
deriving DecidableEq, Repr

/-- Modelled from the spec: per-index validity test (`Array::is_valid`) — bit
`i + offset` of the null bitmap, or valid when the bitmap is absent. -/
def ArrayCommon.isValid (c : ArrayCommon) (i : Nat) : Bool :=
  match c.nullBitmap with
  | none => true
  | some b => getBit b (i + c.offset)

/-- Modelled from the spec: per-index null test (`Array::is_null`). -/
def ArrayCommon.isNull (c : ArrayCommon) (i : Nat) : Bool :=
  !(c.isValid i)

/-- Modelled from the spec: slicing adjusts the logical window (`offset`, `len`)
over the shared buffers without copying, recomputing the null count over the
new window. -/
def ArrayCommon.sliceC (c : ArrayCommon) (start length : Nat) : ArrayCommon :=
  { c with
    offset := c.offset + start
    len := length
    nullCount :=
      match c.nullBitmap with
      | none => 0
      | some b => ((List.range length).filter
          (fun i => !(getBit b (i + c.offset + start)))).length }

/-- The supported array shapes, one constructor per concrete Rust array type
appearing in `equal.rs`.  Value buffers carry the same raw bytes the source
reads: `offsets` is the raw offsets buffer (`buffers()[0]`) for variable-length
kinds, `values`/`valueData` the value bytes, `keys` the dictionary key buffer. -/
inductive Arr : Type where
  | primitiveA (c : ArrayCommon) (values : List Nat)
  | listA (c : ArrayCommon) (w : Nat) (offsets : List Nat) (child : Arr)
  | fixedSizeListA (c : ArrayCommon) (stride : Nat) (child : Arr)
  | binaryA (c : ArrayCommon) (w : Nat) (offsets : List Nat) (valueData : List Nat)
  | stringA (c : ArrayCommon) (w : Nat) (offsets : List Nat) (valueData : List Nat)
  | fixedSizeBinaryA (c : ArrayCommon) (elemW : Nat) (valueData : List Nat)
  | structA (c : ArrayCommon) (columns : List (String × Arr))
  | dictA (c : ArrayCommon) (keyType : DataType) (keys : List Nat) (valuesArr : Arr)
  | unionA (c : ArrayCommon)
  | nullA (c : ArrayCommon)

namespace Arr

/-- The `ArrayData` fields of an array. -/
def common : Arr → ArrayCommon
  | .primitiveA c _ => c
  | .listA c _ _ _ => c
  | .fixedSizeListA c _ _ => c
  | .binaryA c _ _ _ => c
  | .stringA c _ _ _ => c
  | .fixedSizeBinaryA c _ _ => c
  | .structA c _ => c
  | .dictA c _ _ _ => c
  | .unionA c => c
  | .nullA c => c

/-- `Array::len`. -/
def lenA (a : Arr) : Nat := a.common.len

/-- `Array::offset`. -/
def offsetA (a : Arr) : Nat := a.common.offset

/-- `Array::null_count`. -/
def nullCountA (a : Arr) : Nat := a.common.nullCount

/-- `Array::data_type`.  A `NullArray` always reports `DataType::Null`. -/
def dataTypeA : Arr → DataType
  | .nullA _ => .nullT
  | a => a.common.dataType

/-- `data_ref().buffers()[0]`: the first value buffer (offsets buffer for
variable-length kinds, key buffer for dictionaries, empty for container kinds). -/
def buffer0 : Arr → List Nat
  | .primitiveA _ v => v
  | .listA _ _ offs _ => offs
  | .fixedSizeListA _ _ _ => []
  | .binaryA _ _ offs _ => offs
  | .stringA _ _ offs _ => offs
  | .fixedSizeBinaryA _ _ v => v
  | .structA _ _ => []
  | .dictA _ _ k _ => k
  | .unionA _ => []
  | .nullA _ => []

/-- `Array::is_valid`. -/
def isValidA (a : Arr) (i : Nat) : Bool := a.common.isValid i

/-- `Array::is_null`. -/
def isNullA (a : Arr) (i : Nat) : Bool := a.common.isNull i

end Arr

/-- `base_equal`: fast reject on type tag, logical length, and null count, then a
bit-by-bit null-bitmap comparison over `[0, len)` when nulls are present, reading
bit `i + offset` from each side independently.  A missing bitmap while
`null_count > 0` is a failed `unwrap`. -/
def base_equal (this other : Arr) : Res Bool :=
  if this.dataTypeA ≠ other.dataTypeA then .ok false
  else if this.lenA ≠ other.lenA then .ok false
  else if this.nullCountA ≠ other.nullCountA then .ok false
  else if this.nullCountA > 0 then
    match this.common.nullBitmap, other.common.nullBitmap with
    | some null_buf, some other_null_buf =>
      .ok ((List.range this.lenA).all fun i =>
        getBit null_buf (i + this.offsetA) == getBit other_null_buf (i + other.offsetA))
    | _, _ => .error .unwrapFail
  else .ok true

/-- Modelled from the spec: the public offsets accessor `value_offset(i)` of the
variable-length kinds (not in `src/`) — the little-endian `w`-byte entry at
index `i + offset` of the raw offsets buffer. -/
def value_offset (c : ArrayCommon) (w : Nat) (offs : List Nat) (i : Nat) : Nat :=
  decodeLE offs ((c.offset + i) * w) w

/-- Modelled from the spec: `ListArrayOps::value_offset_at`, the typed offsets
entry used by the slow path of `value_offset_equal`, as an integer. -/
def value_offset_at (c : ArrayCommon) (w : Nat) (offs : List Nat) (i : Nat) : Int :=
  (decodeLE offs ((c.offset + i) * w) w : Int)

/-- Modelled from the spec: `value_offset(i)` of a fixed-size-list /
fixed-size-binary array — stride times the physical index. -/
def fixed_value_offset (c : ArrayCommon) (stride i : Nat) : Nat :=
  (c.offset + i) * stride

/-- The zero-offset fast path of `value_offset_equal`: raw-byte comparison of the
two offsets buffers over `(len + 1) * 4` bytes (the literal `4` is the source's). -/
def offset_fast_path (buf0T buf0O : List Nat) (tLen oLen : Nat) : Bool :=
  sliceList buf0T 0 ((tLen + 1) * 4) = sliceList buf0O 0 ((oLen + 1) * 4)

/-- The generic slow path of `value_offset_equal`: pairwise comparison of the
deltas `offsets[i] - offsets[0]` over `i in 0..=len`. -/
def offset_slow_path (voT voO : Nat → Int) (tLen : Nat) : Bool :=
  (List.range (tLen + 1)).all fun i => voT i - voT 0 == voO i - voO 0

/-- `value_offset_equal`: fast path when both logical offsets are zero, else the
delta-recomputation slow path. -/
def value_offset_equal (tOff oOff tLen oLen : Nat) (buf0T buf0O : List Nat)
    (voT voO : Nat → Int) : Bool :=
  if tOff = 0 && oOff = 0 then offset_fast_path buf0T buf0O tLen oLen
  else offset_slow_path voT voO tLen

/-- `bool_equal`: per-index bit comparison skipping indices where the left array
is null. -/
def bool_equal (lhs rhs : Arr) : Bool :=
  (List.range lhs.lenA).all fun i =>
    !(lhs.isValidA i) ||
      (getBit lhs.buffer0 (i + lhs.offsetA) == getBit rhs.buffer0 (i + rhs.offsetA))

/-- Modelled from the spec: the typed value accessor `PrimitiveArray::value(i)` —
the bit at `i + offset` for booleans, else the `byte_width`-byte slot starting at
`(i + offset) * byte_width`. -/
def prim_value (c : ArrayCommon) (values : List Nat) (i : Nat) : List Nat :=
  if c.dataType = .boolean then [if getBit values (i + c.offset) then 1 else 0]
  else sliceList values ((i + c.offset) * c.dataType.byteWidth) c.dataType.byteWidth

/-- Modelled from the spec: `DictionaryArray::keys()` — for each logical index, the
key decoded from the parent's value buffer at `i + offset`, or `none` at a null
slot. -/
def dict_keys (c : ArrayCommon) (keyType : DataType) (keys : List Nat) : List (Option Int) :=
  (List.range c.len).map fun i =>
    if c.isValid i then
      some (if keyType.isSigned then
              asSigned keyType.byteWidth (decodeLE keys ((i + c.offset) * keyType.byteWidth) keyType.byteWidth)
            else (decodeLE keys ((i + c.offset) * keyType.byteWidth) keyType.byteWidth : Int))
    else none

/-- `ArrayEqual::range_equals`, dispatched on the concrete type of `self` exactly
as the per-variant `impl`s do: `unimplemented!` for union and null arrays;
otherwise the `assert!` guard, then the downcast of `other`, then the per-variant
loop.  The list branch reproduces the source's recursion into
`self.values().range_equals(other, ..)` with `other` being the other *list*
array itself. -/
def Arr.range_equals (self other : Arr) (start_idx end_idx other_start_idx : Nat) : Res Bool :=
  match self with
  | .unionA _ => .error .unimplementedOp
  | .nullA _ => .error .unimplementedOp
  | .primitiveA c values =>
    if other_start_idx + (end_idx - start_idx) ≤ other.lenA then
      match other with
      | .primitiveA oc ovalues =>
        if oc.dataType = c.dataType then
          .ok ((List.range (end_idx - start_idx)).all fun k =>
            let i := start_idx + k
            let j := other_start_idx + k
            let is_null := c.isNull i
            let other_is_null := oc.isNull j
            !(is_null != other_is_null ||
              (!is_null && prim_value c values i ≠ prim_value oc ovalues j)))
        else .error .downcastFail
      | _ => .error .downcastFail
    else .error .assertFail
  | .listA c w offs child =>
    if other_start_idx + (end_idx - start_idx) ≤ other.lenA then
      match other with
      | .listA oc ow ooffs ochild =>
        if ow = w then
          forRangeM 0 (end_idx - start_idx) (fun k =>
            let i := start_idx + k
            let j := other_start_idx + k
            let is_null := c.isNull i
            let other_is_null := oc.isNull j
            if is_null != other_is_null then .ok false
            else if is_null then .ok true
            else
              let start_offset := value_offset c w offs i
              let end_offset := value_offset c w offs (i + 1)
              let other_start_offset := value_offset oc w ooffs j
              let other_end_offset := value_offset oc w ooffs (j + 1)
              if end_offset - start_offset ≠ other_end_offset - other_start_offset then
                .ok false
              else
                Arr.range_equals child (.listA oc ow ooffs ochild)
                  start_offset end_offset other_start_offset)
        else .error .downcastFail
      | _ => .error .downcastFail
    else .error .assertFail
  | .fixedSizeListA c stride child =>
    if other_start_idx + (end_idx - start_idx) ≤ other.lenA then
      match other with
      | .fixedSizeListA oc ostride ochild =>
        forRangeM 0 (end_idx - start_idx) (fun k =>
          let i := start_idx + k
          let j := other_start_idx + k
          let is_null := c.isNull i
          let other_is_null := oc.isNull j
          if is_null != other_is_null then .ok false
          else if is_null then .ok true
          else
            let start_offset := fixed_value_offset c stride i
            let end_offset := fixed_value_offset c stride (i + 1)
            let other_start_offset := fixed_value_offset oc ostride j
            let other_end_offset := fixed_value_offset oc ostride (j + 1)
            if end_offset - start_offset ≠ other_end_offset - other_start_offset then
              .ok false
            else
              Arr.range_equals child ochild start_offset end_offset other_start_offset)
      | _ => .error .downcastFail
    else .error .assertFail
  | .binaryA c w offs valueData =>
    if other_start_idx + (end_idx - start_idx) ≤ other.lenA then
      match other with
      | .binaryA oc ow ooffs ovalueData =>
        if ow = w then
          .ok ((List.range (end_idx - start_idx)).all fun k =>
            let i := start_idx + k
            let j := other_start_idx + k
            let is_null := c.isNull i
            let other_is_null := oc.isNull j
            (is_null == other_is_null) &&
              (is_null ||
                (let start_offset := value_offset c w offs i
                 let end_offset := value_offset c w offs (i + 1)
                 let other_start_offset := value_offset oc w ooffs j
                 let other_end_offset := value_offset oc w ooffs (j + 1)
                 (end_offset - start_offset == other_end_offset - other_start_offset) &&
                   (decide (end_offset - start_offset = 0) ||
                     sliceList valueData start_offset (end_offset - start_offset) =
                       sliceList ovalueData other_start_offset (end_offset - start_offset)))))
        else .error .downcastFail
      | _ => .error .downcastFail
    else .error .assertFail
  | .stringA c w offs valueData =>
    if other_start_idx + (end_idx - start_idx) ≤ other.lenA then
      match other with
      | .stringA oc ow ooffs ovalueData =>
        if ow = w then
          .ok ((List.range (end_idx - start_idx)).all fun k =>
            let i := start_idx + k
            let j := other_start_idx + k
            let is_null := c.isNull i
            let other_is_null := oc.isNull j
            (is_null == other_is_null) &&
              (is_null ||
                (let start_offset := value_offset c w offs i
                 let end_offset := value_offset c w offs (i + 1)
                 let other_start_offset := value_offset oc w ooffs j
                 let other_end_offset := value_offset oc w ooffs (j + 1)
                 (end_offset - start_offset == other_end_offset - other_start_offset) &&
                   (decide (end_offset - start_offset = 0) ||
                     sliceList valueData start_offset (end_offset - start_offset) =
                       sliceList ovalueData other_start_offset (end_offset - start_offset)))))
        else .error .downcastFail
      | _ => .error .downcastFail
    else .error .assertFail
  | .fixedSizeBinaryA c elemW valueData =>
    if other_start_idx + (end_idx - start_idx) ≤ other.lenA then
      match other with
      | .fixedSizeBinaryA oc oelemW ovalueData =>
        .ok ((List.range (end_idx - start_idx)).all fun k =>
          let i := start_idx + k
          let j := other_start_idx + k
          let is_null := c.isNull i
          let other_is_null := oc.isNull j
          (is_null == other_is_null) &&
            (is_null ||
              (let start_offset := fixed_value_offset c elemW i
               let end_offset := fixed_value_offset c elemW (i + 1)
               let other_start_offset := fixed_value_offset oc oelemW j
               let other_end_offset := fixed_value_offset oc oelemW (j + 1)
               (end_offset - start_offset == other_end_offset - other_start_offset) &&
                 (decide (end_offset - start_offset = 0) ||
                   sliceList valueData start_offset (end_offset - start_offset) =
                     sliceList ovalueData other_start_offset (end_offset - start_offset)))))
      | _ => .error .downcastFail
    else .error .assertFail
  | .structA c cols =>
    if other_start_idx + (end_idx - start_idx) ≤ other.lenA then
      match other with
      | .structA oc ocols =>
        forRangeM 0 (end_idx - start_idx) (fun t =>
          let i := start_idx + t
          let j := other_start_idx + t
          let is_null := c.isNull i
          let other_is_null := oc.isNull i
          if is_null != other_is_null then .ok false
          else if is_null then .ok true
          else
            match forListM ((cols.zip ocols).attach) (fun p =>
                Arr.range_equals p.1.1.2 p.1.2.2 i (i + 1) j) with
            | .ok true =>
              if cols.length ≤ ocols.length then .ok true else .error .indexOOB
            | r => r)
      | _ => .error .downcastFail
    else .error .assertFail
  | .dictA c keyType keys dvals =>
    if other_start_idx + (end_idx - start_idx) ≤ other.lenA then
      match other with
      | .dictA oc okeyType okeys odvals =>
        if okeyType = keyType then
          let iter_a := ((dict_keys c keyType keys).take end_idx).drop start_idx
          let iter_b := (dict_keys oc okeyType okeys).drop other_start_idx
          if iter_a = iter_b then Arr.range_equals dvals odvals 0 odvals.lenA 0
          else .ok false
        else .error .downcastFail
      | _ => .error .downcastFail
    else .error .assertFail
termination_by sizeOf self
decreasing_by
  all_goals simp_wf
  rename_i p
  obtain ⟨⟨⟨n1, c1⟩, n2c2⟩, hmem⟩ := p
  have h1 : (n1, c1) ∈ cols := (List.of_mem_zip hmem).1
  have h2 := List.sizeOf_lt_of_mem h1
  simp at h2 ⊢
  omega

/-- The per-variant body of `range_equals` after the `assert!` guard: downcast of
`other`, then the comparison loop, with child recursion going through
`Arr.range_equals` itself.  `range_equals` runs exactly this whenever the guard
passes. -/
def Arr.range_equals_body (self other : Arr) (start_idx end_idx other_start_idx : Nat) : Res Bool :=
  match self with
  | .unionA _ => .error .unimplementedOp
  | .nullA _ => .error .unimplementedOp
  | .primitiveA c values =>
    match other with
    | .primitiveA oc ovalues =>
      if oc.dataType = c.dataType then
        .ok ((List.range (end_idx - start_idx)).all fun k =>
          let i := start_idx + k
          let j := other_start_idx + k
          let is_null := c.isNull i
          let other_is_null := oc.isNull j
          !(is_null != other_is_null ||
            (!is_null && prim_value c values i ≠ prim_value oc ovalues j)))
      else .error .downcastFail
    | _ => .error .downcastFail
  | .listA c w offs child =>
    match other with
    | .listA oc ow ooffs ochild =>
      if ow = w then
        forRangeM 0 (end_idx - start_idx) (fun k =>
          let i := start_idx + k
          let j := other_start_idx + k
          let is_null := c.isNull i
          let other_is_null := oc.isNull j
          if is_null != other_is_null then .ok false
          else if is_null then .ok true
          else
            let start_offset := value_offset c w offs i
            let end_offset := value_offset c w offs (i + 1)
            let other_start_offset := value_offset oc w ooffs j
            let other_end_offset := value_offset oc w ooffs (j + 1)
            if end_offset - start_offset ≠ other_end_offset - other_start_offset then
              .ok false
            else
              Arr.range_equals child (.listA oc ow ooffs ochild)
                start_offset end_offset other_start_offset)
      else .error .downcastFail
    | _ => .error .downcastFail
  | .fixedSizeListA c stride child =>
    match other with
    | .fixedSizeListA oc ostride ochild =>
      forRangeM 0 (end_idx - start_idx) (fun k =>
        let i := start_idx + k
        let j := other_start_idx + k
        let is_null := c.isNull i
        let other_is_null := oc.isNull j
        if is_null != other_is_null then .ok false
        else if is_null then .ok true
        else
          let start_offset := fixed_value_offset c stride i
          let end_offset := fixed_value_offset c stride (i + 1)
          let other_start_offset := fixed_value_offset oc ostride j
          let other_end_offset := fixed_value_offset oc ostride (j + 1)
          if end_offset - start_offset ≠ other_end_offset - other_start_offset then
            .ok false
          else
            Arr.range_equals child ochild start_offset end_offset other_start_offset)
    | _ => .error .downcastFail
  | .binaryA c w offs valueData =>
    match other with
    | .binaryA oc ow ooffs ovalueData =>
      if ow = w then
        .ok ((List.range (end_idx - start_idx)).all fun k =>
          let i := start_idx + k
          let j := other_start_idx + k
          let is_null := c.isNull i
          let other_is_null := oc.isNull j
          (is_null == other_is_null) &&
            (is_null ||
              (let start_offset := value_offset c w offs i
               let end_offset := value_offset c w offs (i + 1)
               let other_start_offset := value_offset oc w ooffs j
               let other_end_offset := value_offset oc w ooffs (j + 1)
               (end_offset - start_offset == other_end_offset - other_start_offset) &&
                 (decide (end_offset - start_offset = 0) ||
                   sliceList valueData start_offset (end_offset - start_offset) =
                     sliceList ovalueData other_start_offset (end_offset - start_offset)))))
      else .error .downcastFail
    | _ => .error .downcastFail
  | .stringA c w offs valueData =>
    match other with
    | .stringA oc ow ooffs ovalueData =>
      if ow = w then
        .ok ((List.range (end_idx - start_idx)).all fun k =>
          let i := start_idx + k
          let j := other_start_idx + k
          let is_null := c.isNull i
          let other_is_null := oc.isNull j
          (is_null == other_is_null) &&
            (is_null ||
              (let start_offset := value_offset c w offs i
               let end_offset := value_offset c w offs (i + 1)
               let other_start_offset := value_offset oc w ooffs j
               let other_end_offset := value_offset oc w ooffs (j + 1)
               (end_offset - start_offset == other_end_offset - other_start_offset) &&
                 (decide (end_offset - start_offset = 0) ||
                   sliceList valueData start_offset (end_offset - start_offset) =
                     sliceList ovalueData other_start_offset (end_offset - start_offset)))))
      else .error .downcastFail
    | _ => .error .downcastFail
  | .fixedSizeBinaryA c elemW valueData =>
    match other with
    | .fixedSizeBinaryA oc oelemW ovalueData =>
      .ok ((List.range (end_idx - start_idx)).all fun k =>
        let i := start_idx + k
        let j := other_start_idx + k
        let is_null := c.isNull i
        let other_is_null := oc.isNull j
        (is_null == other_is_null) &&
          (is_null ||
            (let start_offset := fixed_value_offset c elemW i
             let end_offset := fixed_value_offset c elemW (i + 1)
             let other_start_offset := fixed_value_offset oc oelemW j
             let other_end_offset := fixed_value_offset oc oelemW (j + 1)
             (end_offset - start_offset == other_end_offset - other_start_offset) &&
               (decide (end_offset - start_offset = 0) ||
                 sliceList valueData start_offset (end_offset - start_offset) =
                   sliceList ovalueData other_start_offset (end_offset - start_offset)))))
    | _ => .error .downcastFail
  | .structA c cols =>
    match other with
    | .structA oc ocols =>
      forRangeM 0 (end_idx - start_idx) (fun t =>
        let i := start_idx + t
        let j := other_start_idx + t
        let is_null := c.isNull i
        let other_is_null := oc.isNull i
        if is_null != other_is_null then .ok false
        else if is_null then .ok true
        else
          match forListM ((cols.zip ocols).attach) (fun p =>
              Arr.range_equals p.1.1.2 p.1.2.2 i (i + 1) j) with
          | .ok true =>
            if cols.length ≤ ocols.length then .ok true else .error .indexOOB
          | r => r)
    | _ => .error .downcastFail
  | .dictA c keyType keys dvals =>
    match other with
    | .dictA oc okeyType okeys odvals =>
      if okeyType = keyType then
        let iter_a := ((dict_keys c keyType keys).take end_idx).drop start_idx
        let iter_b := (dict_keys oc okeyType okeys).drop other_start_idx
        if iter_a = iter_b then Arr.range_equals dvals odvals 0 odvals.lenA 0
        else .ok false
      else .error .downcastFail
    | _ => .error .downcastFail

/-- `ArrayEqual::equals`, dispatched on the concrete type of `self`.  Every
variant except `DictionaryArray`, `UnionArray` and `NullArray` begins with
`base_equal`; `DictionaryArray::equals` forwards to
`range_equals(other, 0, self.len(), 0)`, `UnionArray::equals` is
`unimplemented!`, and `NullArray::equals` re-implements the three base checks
itself. -/
def Arr.equals (self other : Arr) : Res Bool :=
  match self with
  | .primitiveA c values => do
    let b ← base_equal self other
    if !b then return false
    if c.dataType = .boolean then
      return bool_equal self other
    let value_buf := values
    let other_value_buf := other.buffer0
    let byte_width := c.dataType.byteWidth
    if c.nullCount > 0 then
      return (List.range c.len).all fun i =>
        !(c.isValid i) ||
          (sliceList value_buf ((i + c.offset) * byte_width) byte_width =
            sliceList other_value_buf ((i + other.offsetA) * byte_width) byte_width)
    else
      return sliceList value_buf (c.offset * byte_width) (c.len * byte_width) =
        sliceList other_value_buf (other.offsetA * byte_width) (c.len * byte_width)
  | .listA c w offs child => do
    let b ← base_equal self other
    if !b then return false
    match other with
    | .listA oc ow ooffs ochild =>
      if ow = w then do
        if !(value_offset_equal c.offset oc.offset c.len oc.len offs ooffs
              (value_offset_at c w offs) (value_offset_at oc w ooffs)) then
          return false
        Arr.range_equals child ochild
          (value_offset c w offs 0) (value_offset c w offs c.len)
          (value_offset oc w ooffs 0)
      else .error .downcastFail
    | _ => .error .downcastFail
  | .fixedSizeListA c stride child => do
    let b ← base_equal self other
    if !b then return false
    match other with
    | .fixedSizeListA oc ostride ochild =>
      Arr.range_equals child ochild
        (fixed_value_offset c stride 0) (fixed_value_offset c stride c.len)
        (fixed_value_offset oc ostride 0)
    | _ => .error .downcastFail
  | .binaryA c w offs valueData => do
    let b ← base_equal self other
    if !b then return false
    match other with
    | .binaryA oc ow ooffs ovalueData =>
      if ow = w then
        if !(value_offset_equal c.offset oc.offset c.len oc.len offs ooffs
              (value_offset_at c w offs) (value_offset_at oc w ooffs)) then
          .ok false
        else if c.nullCount = 0 then
          if c.offset = 0 && oc.offset = 0 then
            .ok (sliceList valueData 0 (value_offset c w offs c.len) =
              sliceList ovalueData 0 (value_offset c w offs c.len))
          else
            .ok (sliceList valueData (value_offset c w offs 0)
                  (value_offset c w offs c.len - value_offset c w offs 0) =
              sliceList ovalueData (value_offset oc w ooffs 0)
                  (value_offset c w offs c.len - value_offset c w offs 0))
        else
          .ok ((List.range c.len).all fun i =>
            c.isNull i ||
              (sliceList valueData (value_offset c w offs i)
                  (value_offset c w offs (i + 1) - value_offset c w offs i) =
                sliceList ovalueData (value_offset oc w ooffs i)
                  (value_offset c w offs (i + 1) - value_offset c w offs i)))
      else .error .downcastFail
    | _ => .error .downcastFail
  | .stringA c w offs valueData => do
    let b ← base_equal self other
    if !b then return false
    match other with
    | .stringA oc ow ooffs ovalueData =>
      if ow = w then
        if !(value_offset_equal c.offset oc.offset c.len oc.len offs ooffs
              (value_offset_at c w offs) (value_offset_at oc w ooffs)) then
          .ok false
        else if c.nullCount = 0 then
          if c.offset = 0 && oc.offset = 0 then
            .ok (sliceList valueData 0 (value_offset c w offs c.len) =
              sliceList ovalueData 0 (value_offset c w offs c.len))
          else
            .ok (sliceList valueData (value_offset c w offs 0)
                  (value_offset c w offs c.len - value_offset c w offs 0) =
              sliceList ovalueData (value_offset oc w ooffs 0)
                  (value_offset c w offs c.len - value_offset c w offs 0))
        else
          .ok ((List.range c.len).all fun i =>
            c.isNull i ||
              (sliceList valueData (value_offset c w offs i)
                  (value_offset c w offs (i + 1) - value_offset c w offs i) =
                sliceList ovalueData (value_offset oc w ooffs i)
                  (value_offset c w offs (i + 1) - value_offset c w offs i)))
      else .error .downcastFail
    | _ => .error .downcastFail
  | .fixedSizeBinaryA c elemW valueData => do
    let b ← base_equal self other
    if !b then return false
    match other with
    | .fixedSizeBinaryA oc oelemW ovalueData =>
      if !(value_offset_equal c.offset oc.offset c.len oc.len valueData ovalueData
            (fun i => (fixed_value_offset c elemW i : Int))
            (fun i => (fixed_value_offset oc oelemW i : Int))) then
        .ok false
      else if c.nullCount = 0 then
        if c.offset = 0 && oc.offset = 0 then
          .ok (sliceList valueData 0 (fixed_value_offset c elemW c.len) =
            sliceList ovalueData 0 (fixed_value_offset c elemW c.len))
        else
          .ok (sliceList valueData (fixed_value_offset c elemW 0)
                (fixed_value_offset c elemW c.len - fixed_value_offset c elemW 0) =
            sliceList ovalueData (fixed_value_offset oc oelemW 0)
                (fixed_value_offset c elemW c.len - fixed_value_offset c elemW 0))
      else
        .ok ((List.range c.len).all fun i =>
          c.isNull i ||
            (sliceList valueData (fixed_value_offset c elemW i) elemW =
              sliceList ovalueData (fixed_value_offset oc oelemW i) elemW))
    | _ => .error .downcastFail
  | .structA c cols => do
    let b ← base_equal self other
    if !b then return false
    match other with
    | .structA oc ocols =>
      forRangeM 0 c.len (fun i =>
        let is_null := c.isNull i
        let other_is_null := oc.isNull i
        if is_null != other_is_null then .ok false
        else if is_null then .ok true
        else
          match forListM (cols.zip ocols) (fun p =>
              Arr.range_equals p.1.2 p.2.2 i (i + 1) i) with
          | .ok true =>
            if cols.length ≤ ocols.length then .ok true else .error .indexOOB
          | r => r)
    | _ => .error .downcastFail
  | .dictA _ _ _ _ =>
    Arr.range_equals self other 0 self.lenA 0
  | .unionA _ => .error .unimplementedOp
  | .nullA c =>
    if other.dataTypeA ≠ .nullT then .ok false
    else if c.len ≠ other.lenA then .ok false
    else if c.nullCount ≠ other.nullCountA then .ok false
    else .ok true

/-- A parsed reference value tree (`serde_json::Value`): null, boolean, number
(restricted to integers), string, ordered sequence, or named mapping. -/
inductive JValue : Type where
  | null
  | bool (b : Bool)
  | num (n : Int)
  | str (s : String)
  | arr (vs : List JValue)
  | obj (fields : List (String × JValue))
deriving BEq, Repr

/-- `Value::get(name)`: field lookup on a mapping node, `none` on any other node. -/
def JValue.getField : JValue → String → Option JValue
  | .obj fields, name => (fields.find? (fun p => p.1 = name)).map (fun p => p.2)
  | _, _ => none

/-- The value of one hexadecimal digit. -/
def hexVal (ch : Char) : Option Nat :=
  if '0' ≤ ch ∧ ch ≤ '9' then some (ch.toNat - 48)
  else if 'a' ≤ ch ∧ ch ≤ 'f' then some (ch.toNat - 87)
  else if 'A' ≤ ch ∧ ch ≤ 'F' then some (ch.toNat - 55)
  else none

/-- `Vec::from_hex` over a character list: pairs of hex digits; odd length or a
non-hex character fails. -/
def from_hex_chars : List Char → Option (List Nat)
  | [] => some []
  | [_] => none
  | c1 :: c2 :: rest =>
    match hexVal c1, hexVal c2, from_hex_chars rest with
    | some h, some l, some bs => some ((16 * h + l) :: bs)
    | _, _, _ => none

/-- `Vec::from_hex(s)`. -/
def from_hex (s : String) : Option (List Nat) := from_hex_chars s.data

/-- UTF-8 encoding of a single character. -/
def utf8Bytes (ch : Char) : List Nat :=
  let c := ch.toNat
  if c < 0x80 then [c]
  else if c < 0x800 then [0xC0 + c / 64, 0x80 + c % 64]
  else if c < 0x10000 then [0xE0 + c / 4096, 0x80 + c / 64 % 64, 0x80 + c % 64]
  else [0xF0 + c / 262144, 0x80 + c / 4096 % 64, 0x80 + c / 64 % 64, 0x80 + c % 64]

/-- `str::as_bytes`: the UTF-8 bytes of a string. -/
def strBytes (s : String) : List Nat :=
  s.data.foldr (fun ch acc => utf8Bytes ch ++ acc) []

/-- Modelled from the spec: `value(i).into_json_value()` for a primitive array —
a JSON boolean for boolean arrays, else the (sign-interpreted) integer slot value. -/
def prim_into_json (c : ArrayCommon) (values : List Nat) (i : Nat) : JValue :=
  if c.dataType = .boolean then .bool (getBit values (i + c.offset))
  else if c.dataType.isSigned then
    .num (asSigned c.dataType.byteWidth
      (decodeLE values ((i + c.offset) * c.dataType.byteWidth) c.dataType.byteWidth))
  else
    .num (decodeLE values ((i + c.offset) * c.dataType.byteWidth) c.dataType.byteWidth)

/-- The raw bytes of `value(i)` of a variable-length (binary/string) array:
the span `[value_offset(i), value_offset(i+1))` of the value buffer. -/
def bin_value (c : ArrayCommon) (w : Nat) (offs valueData : List Nat) (i : Nat) : List Nat :=
  sliceList valueData (value_offset c w offs i)
    (value_offset c w offs (i + 1) - value_offset c w offs i)

/-- The raw bytes of `value(i)` of a fixed-size binary array. -/
def fsb_value (c : ArrayCommon) (elemW : Nat) (valueData : List Nat) (i : Nat) : List Nat :=
  sliceList valueData (fixed_value_offset c elemW i) elemW

/-- Nesting depth of an array (ignores all buffer data); the recursion measure
for reference-value equality. -/
def Arr.depth : Arr → Nat
  | .listA _ _ _ child => child.depth + 1
  | .fixedSizeListA _ _ child => child.depth + 1
  | .dictA _ _ _ v => v.depth + 1
  | .structA _ cols => (cols.attach.map (fun p => p.1.2.depth)).foldr max 0 + 1
  | _ => 0
termination_by a => sizeOf a
decreasing_by
  all_goals simp_wf
  rename_i p
  obtain ⟨⟨n1, c1⟩, hmem⟩ := p
  have h2 := List.sizeOf_lt_of_mem hmem
  simp at h2 ⊢
  omega

/-- Modelled from the spec: `Array::slice(offset, length)` — a new logical view
over the same buffers with the window moved, no copying. -/
def Arr.sliceA (a : Arr) (start length : Nat) : Arr :=
  match a with
  | .primitiveA c v => .primitiveA (c.sliceC start length) v
  | .listA c w offs child => .listA (c.sliceC start length) w offs child
  | .fixedSizeListA c s child => .fixedSizeListA (c.sliceC start length) s child
  | .binaryA c w o v => .binaryA (c.sliceC start length) w o v
  | .stringA c w o v => .stringA (c.sliceC start length) w o v
  | .fixedSizeBinaryA c e v => .fixedSizeBinaryA (c.sliceC start length) e v
  | .structA c cols => .structA (c.sliceC start length) cols
  | .dictA c kt k v => .dictA (c.sliceC start length) kt k v
  | .unionA c => .unionA (c.sliceC start length)
  | .nullA c => .nullA (c.sliceC start length)

theorem depth_sliceA (a : Arr) (s l : Nat) : (a.sliceA s l).depth = a.depth := by
  cases a <;> simp [Arr.sliceA, Arr.depth]

theorem le_foldr_max (l : List Nat) (x : Nat) (h : x ∈ l) : x ≤ l.foldr max 0 := by
  induction l with
  | nil => cases h
  | cons y ys ih =>
    rcases List.mem_cons.mp h with h1 | h2
    · subst h1; exact Nat.le_max_left _ _
    · exact Nat.le_trans (ih h2) (Nat.le_max_right _ _)

theorem depth_col_lt {c : ArrayCommon} {cols : List (String × Arr)} {p : String × Arr}
    (h : p ∈ cols) : p.2.depth < (Arr.structA c cols).depth := by
  have hd : (Arr.structA c cols).depth
      = (cols.attach.map (fun q => q.1.2.depth)).foldr max 0 + 1 := by
    simp [Arr.depth]
  have hmem : p.2.depth ∈ cols.attach.map (fun q => q.1.2.depth) :=
    List.mem_map.mpr ⟨⟨p, h⟩, List.mem_attach cols ⟨p, h⟩, rfl⟩
  have := le_foldr_max _ _ hmem
  omega

/-- `JsonEqual::equals_json`, dispatched on the concrete type of `self`: per-variant
comparison of an array against a slice of reference nodes. -/
def Arr.equals_json (self : Arr) (json : List JValue) : Res Bool :=
  match self with
  | .primitiveA c values =>
    .ok (if c.len ≠ json.length then false
      else (List.range c.len).all fun i =>
        match json.getD i .null with
        | .null => c.isNull i
        | v => c.isValid i && v == prim_into_json c values i)
  | .listA c w offs child =>
    if c.len ≠ json.length then .ok false
    else forRangeM 0 c.len (fun i =>
      match json.getD i .null with
      | .arr v =>
        if c.isValid i then
          Arr.equals_json
            (child.sliceA (value_offset c w offs i)
              (value_offset c w offs (i + 1) - value_offset c w offs i)) v
        else .ok false
      | .null =>
        .ok (c.isNull i ||
          decide (value_offset c w offs (i + 1) - value_offset c w offs i = 0))
      | _ => .ok false)
  | .fixedSizeListA c stride child =>
    if c.len ≠ json.length then .ok false
    else forRangeM 0 c.len (fun i =>
      match json.getD i .null with
      | .arr v =>
        if c.isValid i then
          Arr.equals_json (child.sliceA (fixed_value_offset c stride i) stride) v
        else .ok false
      | .null => .ok (c.isNull i || decide (stride = 0))
      | _ => .ok false)
  | .dictA c keyType keys _ =>
    forListM ((dict_keys c keyType keys).zip json) (fun p =>
      match p.1, p.2 with
      | none, .null => .ok true
      | some a, .num j =>
        if a < 0 then .error .unwrapFail
        else if j < 0 then .error .unwrapFail
        else .ok (a == j)
      | _, _ => .ok false)
  | .structA c cols =>
    if c.len ≠ json.length then .ok false
    else
      let all_object := json.all fun v =>
        match v with
        | .obj _ => true
        | .null => true
        | _ => false
      if !all_object then .ok false
      else
        forListM cols.attach (fun p =>
          let json_values := json.map (fun o => (o.getField p.1.1).getD .null)
          Arr.equals_json p.1.2 json_values)
  | .binaryA c w offs valueData =>
    .ok (if c.len ≠ json.length then false
      else (List.range c.len).all fun i =>
        match json.getD i .null with
        | .str s =>
          c.isValid i &&
            (decide (strBytes s = bin_value c w offs valueData i) ||
              decide (from_hex s = some (bin_value c w offs valueData i)))
        | .null => c.isNull i
        | _ => false)
  | .stringA c w offs valueData =>
    .ok (if c.len ≠ json.length then false
      else (List.range c.len).all fun i =>
        match json.getD i .null with
        | .str s => c.isValid i && decide (strBytes s = bin_value c w offs valueData i)
        | .null => c.isNull i
        | _ => false)
  | .fixedSizeBinaryA c elemW valueData =>
    .ok (if c.len ≠ json.length then false
      else (List.range c.len).all fun i =>
        match json.getD i .null with
        | .str s =>
          c.isValid i &&
            (decide (strBytes s = fsb_value c elemW valueData i) ||
              decide (from_hex s = some (fsb_value c elemW valueData i)))
        | .null => c.isNull i
        | _ => false)
  | .unionA _ => .error .unimplementedOp
  | .nullA c =>
    .ok (if c.len ≠ json.length then false else json.all (fun v => v == JValue.null))
termination_by self.depth
decreasing_by
  all_goals first
    | (rw [depth_sliceA]; simp [Arr.depth])
    | (rw [depth_sliceA]; simp [Arr.depth]; omega)
    | (rename_i p; exact depth_col_lt p.2)

/-- `PartialEq<Value> for <ArrayType>`: comparison of an array against a whole
reference value — dispatch to `equals_json` on a sequence node, `false` otherwise. -/
def Arr.eq_json_value (self : Arr) (json : JValue) : Res Bool :=
  match json with
  | .arr array => self.equals_json array
  | _ => .ok false

/-- `PartialEq<ArrayType> for Value`: the mirrored direction. -/
def jvalue_eq_arr (json : JValue) (arrow : Arr) : Res Bool :=
  match json with
  | .arr array => arrow.equals_json array
  | _ => .ok false

/-- Whether the array is a union array. -/
def Arr.isUnionA : Arr → Bool
  | .unionA _ => true
  | _ => false

/-- Whether the array is a null-typed array. -/
def Arr.isNullArr : Arr → Bool
  | .nullA _ => true
  | _ => false

/-- Whether the array is dictionary-encoded. -/
def Arr.isDictA : Arr → Bool
  | .dictA _ _ _ _ => true
  | _ => false

/-- Whether a reference node is a sequence node. -/
def JValue.isArrNode : JValue → Bool
  | .arr _ => true
  | _ => false

/- ### Claim theorems -/

/-- C6: calling whole-array `equals` or `range_equals` on a union array, or
`range_equals` on a null-typed array, never returns a boolean: each call yields
the explicit unsupported-operation panic, distinguishable from both `.ok true`
and `.ok false`. -/
theorem c6_unsupported_signals (c : ArrayCommon) (other : Arr) (s e os : Nat) :
    Arr.equals (.unionA c) other = .error .unimplementedOp ∧
    Arr.range_equals (.unionA c) other s e os = .error .unimplementedOp ∧
    Arr.range_equals (.nullA c) other s e os = .error .unimplementedOp := by
  refine ⟨rfl, ?_, ?_⟩ <;> simp [Arr.range_equals]

/-- C5: for every supported variant, `range_equals` with a sub-range exceeding the
other array's logical length aborts with the assertion failure (never clamps nor
returns false); and when the precondition
`other_start_idx + (end_idx - start_idx) <= other.len()` holds, the assertion
does not fire — the call proceeds to the guard-free comparison body. -/
theorem c5_range_assert (self other : Arr) (s e os : Nat)
    (hu : self.isUnionA = false) (hn : self.isNullArr = false) :
    (os + (e - s) > other.lenA →
      Arr.range_equals self other s e os = .error .assertFail) ∧
    (os + (e - s) ≤ other.lenA →
      Arr.range_equals self other s e os = Arr.range_equals_body self other s e os) := by
  refine ⟨fun h => ?_, fun h => ?_⟩
  · cases self <;> first
      | (rw [Arr.range_equals.eq_def]; dsimp only; rw [if_neg (by omega)])
      | (simp [Arr.isUnionA] at hu; done)
      | (simp [Arr.isNullArr] at hn; done)
  · cases self <;> first
      | (rw [Arr.range_equals.eq_def, Arr.range_equals_body.eq_def]; dsimp only;
          rw [if_pos h])
      | (simp [Arr.isUnionA] at hu; done)
      | (simp [Arr.isNullArr] at hn; done)

/-- Concrete arrays for the C5 witness: two int32 arrays `[1]` and `[1, 2]`. -/
def c5_arr1 : Arr := .primitiveA
  { dataType := .int32, len := 1, offset := 0, nullCount := 0, nullBitmap := none }
  [1, 0, 0, 0]

def c5_arr2 : Arr := .primitiveA
  { dataType := .int32, len := 2, offset := 0, nullCount := 0, nullBitmap := none }
  [1, 0, 0, 0, 2, 0, 0, 0]

theorem c5_range_assert_witness :
    Arr.range_equals c5_arr2 c5_arr1 0 2 0 = .error .assertFail ∧
    Arr.range_equals c5_arr1 c5_arr2 0 1 0 = Arr.range_equals_body c5_arr1 c5_arr2 0 1 0 :=
  ⟨(c5_range_assert c5_arr2 c5_arr1 0 2 0 (by decide) (by decide)).1 (by decide),
   (c5_range_assert c5_arr1 c5_arr2 0 1 0 (by decide) (by decide)).2 (by decide)⟩

/-- Concrete arrays for C4: the list-of-int32 array `[[1]]`, twice, with identical
content (offsets `[0, 1]`, one valid child value `1`). -/
def c4_child : Arr := .primitiveA
  { dataType := .int32, len := 1, offset := 0, nullCount := 0, nullBitmap := none }
  [1, 0, 0, 0]

def c4_list1 : Arr := .listA
  { dataType := .listT .int32, len := 1, offset := 0, nullCount := 0, nullBitmap := none }
  4 [0, 0, 0, 0, 1, 0, 0, 0] c4_child

def c4_list2 : Arr := .listA
  { dataType := .listT .int32, len := 1, offset := 0, nullCount := 0, nullBitmap := none }
  4 [0, 0, 0, 0, 1, 0, 0, 0] c4_child

/-- C4: `GenericListArray::range_equals` hands the *other list array itself* to the
child values array's `range_equals` instead of the other list's child values array.
On two identical, well-formed lists `[[1]]`, whole-array `equals` succeeds, yet
`range_equals(other, 0, 1, 0)` aborts: the child `PrimitiveArray` comparator
downcasts the list it was given and panics — demonstrating that the right-hand
span is not taken from the other list's child array as the spec requires. -/
theorem c4_list_range_wrong_receiver :
    Arr.equals c4_list1 c4_list2 = .ok true ∧
    Arr.range_equals c4_list1 c4_list2 0 1 0 = .error .downcastFail := by
  constructor
  · simp [Arr.equals, Arr.range_equals, Arr.lenA, Arr.common, forRangeM, value_offset,
      value_offset_at, value_offset_equal, offset_fast_path, decodeLE, sliceList,
      ArrayCommon.isNull, ArrayCommon.isValid, c4_list1, c4_list2, c4_child,
      base_equal, Arr.dataTypeA, Arr.nullCountA, Arr.offsetA, prim_value,
      DataType.byteWidth, Bind.bind, Except.bind, pure, Except.pure]
  · simp [Arr.range_equals, Arr.lenA, Arr.common, forRangeM, value_offset, decodeLE,
      sliceList, ArrayCommon.isNull, ArrayCommon.isValid, c4_list1, c4_list2, c4_child]

/-- The 64-bit offsets buffers for C2: entries `[0, 1]` and `[0, 2]` as 8-byte
little-endian values.  Both arrays have logical offset 0 and length 1. -/
def c2_offs1 : List Nat := [0, 0, 0, 0, 0, 0, 0, 0, 1, 0, 0, 0, 0, 0, 0, 0]

def c2_offs2 : List Nat := [0, 0, 0, 0, 0, 0, 0, 0, 2, 0, 0, 0, 0, 0, 0, 0]

def c2_common : ArrayCommon :=
  { dataType := .largeBinary, len := 1, offset := 0, nullCount := 0, nullBitmap := none }

/-- C2: the zero-offset fast path of the offsets-table comparison and the generic
delta slow path disagree for 64-bit (large) offset types: the fast path compares
only `(len + 1) * 4` raw bytes — half of each 8-byte entry — so on offsets
`[0, 1]` vs `[0, 2]` (length 1) it stops inside the first entry and answers
`true`, while the delta recomputation sees `1 ≠ 2` and answers `false`. -/
theorem c2_offset_paths_disagree :
    offset_fast_path c2_offs1 c2_offs2 1 1 = true ∧
    offset_slow_path (value_offset_at c2_common 8 c2_offs1)
      (value_offset_at c2_common 8 c2_offs2) 1 = false := by
  constructor <;> decide

/-- Concrete dictionary arrays for C1: same key and value types, lengths 2 and 1. -/
def c1_dict_values : Arr := .primitiveA
  { dataType := .int32, len := 3, offset := 0, nullCount := 0, nullBitmap := none }
  [1, 0, 0, 0, 2, 0, 0, 0, 3, 0, 0, 0]

def c1_dict_a : Arr := .dictA
  { dataType := .dictionaryT .int8 .int32, len := 2, offset := 0, nullCount := 0,
    nullBitmap := none }
  .int8 [0, 1] c1_dict_values

def c1_dict_b : Arr := .dictA
  { dataType := .dictionaryT .int8 .int32, len := 1, offset := 0, nullCount := 0,
    nullBitmap := none }
  .int8 [0] c1_dict_values

/-- C1 counterexample: the dictionary comparator skips the base compatibility
check.  These two dictionary arrays differ in logical length (2 vs 1), yet
`equals` does not return `false`: it forwards to `range_equals(other, 0, 2, 0)`,
whose assertion `0 + 2 <= 1` fails, aborting instead. -/
theorem c1_counterexample :
    c1_dict_a.lenA ≠ c1_dict_b.lenA ∧
    Arr.equals c1_dict_a c1_dict_b = .error .assertFail := by
  constructor
  · decide
  · simp [Arr.equals, Arr.range_equals, Arr.lenA, Arr.common, c1_dict_a, c1_dict_b,
      c1_dict_values]

theorem base_equal_false_of_mismatch {a b : Arr}
    (hmis : a.dataTypeA ≠ b.dataTypeA ∨ a.lenA ≠ b.lenA ∨ a.nullCountA ≠ b.nullCountA) :
    base_equal a b = .ok false := by
  unfold base_equal
  rcases hmis with h | h | h
  · rw [if_pos h]
  · by_cases h1 : a.dataTypeA ≠ b.dataTypeA
    · rw [if_pos h1]
    · rw [if_neg h1, if_pos h]
  · by_cases h1 : a.dataTypeA ≠ b.dataTypeA
    · rw [if_pos h1]
    · by_cases h2 : a.lenA ≠ b.lenA
      · rw [if_neg h1, if_pos h2]
      · rw [if_neg h1, if_neg h2, if_pos h]

/-- C1 (amended): for every supported array kind *except dictionary-encoded
arrays*, whole-array `equals(a, b)` returns `false` whenever the type tags,
logical lengths, or null counts differ, because those per-variant comparators
perform the base compatibility check first (the null-array comparator
re-implements the same three checks).  The dictionary comparator skips the base
check, so it is excluded (see the counterexample). -/
theorem c1_base_reject (a b : Arr)
    (hmis : a.dataTypeA ≠ b.dataTypeA ∨ a.lenA ≠ b.lenA ∨ a.nullCountA ≠ b.nullCountA)
    (hu : a.isUnionA = false) (hd : a.isDictA = false) :
    Arr.equals a b = .ok false := by
  have hbase := base_equal_false_of_mismatch hmis
  cases a <;> first
    | (rw [Arr.equals.eq_def]; dsimp only; rw [hbase] <;> rfl)
    | (simp [Arr.isUnionA] at hu; done)
    | (simp [Arr.isDictA] at hd; done)
    | (rw [Arr.equals.eq_def]; dsimp only
       split_ifs with h1 h2 h3 <;>
         first
           | rfl
           | (exfalso
              rcases hmis with h | h | h <;>
                simp_all [Arr.dataTypeA, Arr.lenA, Arr.nullCountA, Arr.common]))

/-- Concrete arrays for the C1 witness: int32 arrays of lengths 1 and 2. -/
def c1_prim_a : Arr := .primitiveA
  { dataType := .int32, len := 1, offset := 0, nullCount := 0, nullBitmap := none }
  [1, 0, 0, 0]

def c1_prim_b : Arr := .primitiveA
  { dataType := .int32, len := 2, offset := 0, nullCount := 0, nullBitmap := none }
  [1, 0, 0, 0, 2, 0, 0, 0]

theorem c1_base_reject_witness : Arr.equals c1_prim_a c1_prim_b = .ok false :=
  c1_base_reject c1_prim_a c1_prim_b (by decide) (by decide) (by decide)

/-- C7 (amended): for every array kind supporting reference-value equality except
dictionary-encoded arrays, `equals_json` returns `false` whenever the array's
logical length differs from the number of reference nodes, before any
per-element comparison.  The dictionary implementation performs no length check:
it zips the keys with the reference nodes and ignores the excess of the longer
side (see the counterexample). -/
theorem c7_json_length_check (a : Arr) (json : List JValue)
    (hlen : a.lenA ≠ json.length) (hd : a.isDictA = false) (hu : a.isUnionA = false) :
    a.equals_json json = .ok false := by
  cases a <;> first
    | (rw [Arr.equals_json.eq_def]; dsimp only
       rw [if_pos (by simpa [Arr.lenA, Arr.common] using hlen)])
    | (simp [Arr.isDictA] at hd; done)
    | (simp [Arr.isUnionA] at hu; done)

/-- A length-1 int32 array for the C7 witness. -/
def c7_prim : Arr := .primitiveA
  { dataType := .int32, len := 1, offset := 0, nullCount := 0, nullBitmap := none }
  [7, 0, 0, 0]

theorem c7_json_length_check_witness : Arr.equals_json c7_prim [] = .ok false :=
  c7_json_length_check c7_prim [] (by decide) (by decide) (by decide)

/-- A length-1 dictionary array (key 0) for the C7 counterexample. -/
def c7_dict_values : Arr := .primitiveA
  { dataType := .int32, len := 3, offset := 0, nullCount := 0, nullBitmap := none }
  [1, 0, 0, 0, 2, 0, 0, 0, 3, 0, 0, 0]

def c7_dict : Arr := .dictA
  { dataType := .dictionaryT .int8 .int32, len := 1, offset := 0, nullCount := 0,
    nullBitmap := none }
  .int8 [0] c7_dict_values

/-- C7 counterexample: a dictionary array of length 1 compared against two
reference nodes — the lengths differ, yet `equals_json` returns `true`, because
the dictionary implementation zips the two sequences and never compares lengths. -/
theorem c7_counterexample :
    c7_dict.lenA ≠ ([JValue.num 0, JValue.num 5]).length ∧
    Arr.equals_json c7_dict [JValue.num 0, JValue.num 5] = .ok true := by
  constructor
  · decide
  · simp [Arr.equals_json, dict_keys, forListM, ArrayCommon.isValid, decodeLE,
      sliceList, DataType.isSigned, DataType.byteWidth, asSigned, c7_dict,
      c7_dict_values]

/-- C10: comparing an array against a top-level reference value that is not a
sequence node, through the `PartialEq<Value>` interface, returns `false` in both
directions without faulting (union arrays, which implement no `PartialEq<Value>`,
are out of scope). -/
theorem c10_partialeq_non_array (a : Arr) (v : JValue)
    (hu : a.isUnionA = false) (hv : v.isArrNode = false) :
    Arr.eq_json_value a v = .ok false ∧ jvalue_eq_arr v a = .ok false := by
  cases v <;> first
    | (simp [JValue.isArrNode] at hv; done)
    | exact ⟨rfl, rfl⟩

/-- A small struct array for the C10 witness. -/
def c10_struct : Arr := .structA
  { dataType := .structT ["f1"], len := 1, offset := 0, nullCount := 0, nullBitmap := none }
  [("f1", .primitiveA
    { dataType := .int32, len := 1, offset := 0, nullCount := 0, nullBitmap := none }
    [1, 0, 0, 0])]

theorem c10_partialeq_non_array_witness :
    Arr.eq_json_value c10_struct (.num 3) = .ok false ∧
    jvalue_eq_arr (.num 3) c10_struct = .ok false :=
  c10_partialeq_non_array c10_struct (.num 3) (by decide) (by decide)

theorem ok_eq_ok_true {b : Bool} : (Except.ok b : Res Bool) = .ok true ↔ b = true := by
  simp

/-- C8: for a binary array (and a fixed-size binary array), `equals_json`
accepts exactly when lengths agree and, position by position: a string node at a
valid slot is accepted iff the string's UTF-8 bytes equal the value's raw bytes
or the string hex-decodes to bytes equal to the value; a string node at a null
slot is rejected; a null node matches exactly the null slots; any other node
kind is rejected. -/
theorem c8_binary_json_hex :
    (∀ (c : ArrayCommon) (w : Nat) (offs valueData : List Nat) (json : List JValue),
      Arr.equals_json (.binaryA c w offs valueData) json = .ok true ↔
        (c.len = json.length ∧ ∀ i, i < c.len →
          (match json.getD i .null with
           | .str s => c.isValid i = true ∧
               (strBytes s = bin_value c w offs valueData i ∨
                from_hex s = some (bin_value c w offs valueData i))
           | .null => c.isNull i = true
           | _ => False))) ∧
    (∀ (c : ArrayCommon) (elemW : Nat) (valueData : List Nat) (json : List JValue),
      Arr.equals_json (.fixedSizeBinaryA c elemW valueData) json = .ok true ↔
        (c.len = json.length ∧ ∀ i, i < c.len →
          (match json.getD i .null with
           | .str s => c.isValid i = true ∧
               (strBytes s = fsb_value c elemW valueData i ∨
                from_hex s = some (fsb_value c elemW valueData i))
           | .null => c.isNull i = true
           | _ => False))) := by
  constructor
  · intro c w offs valueData json
    rw [Arr.equals_json.eq_def]; dsimp only
    rw [ok_eq_ok_true]
    by_cases hl : c.len ≠ json.length
    · rw [if_pos hl]
      simp only [Bool.false_eq_true, false_iff]
      intro hcon
      exact hl hcon.1
    · rw [if_neg hl]
      push_neg at hl
      rw [List.all_eq_true]
      constructor
      · intro h
        refine ⟨hl, fun i hi => ?_⟩
        have hfi := h i (List.mem_range.mpr hi)
        revert hfi
        cases hj : json.getD i .null <;> simp [hj]
      · rintro ⟨h1, h2⟩ i hi
        have hi2 := List.mem_range.mp hi
        have hfi := h2 i hi2
        revert hfi
        cases hj : json.getD i .null <;> simp [hj]
  · intro c elemW valueData json
    rw [Arr.equals_json.eq_def]; dsimp only
    rw [ok_eq_ok_true]
    by_cases hl : c.len ≠ json.length
    · rw [if_pos hl]
      simp only [Bool.false_eq_true, false_iff]
      intro hcon
      exact hl hcon.1
    · rw [if_neg hl]
      push_neg at hl
      rw [List.all_eq_true]
      constructor
      · intro h
        refine ⟨hl, fun i hi => ?_⟩
        have hfi := h i (List.mem_range.mpr hi)
        revert hfi
        cases hj : json.getD i .null <;> simp [hj]
      · rintro ⟨h1, h2⟩ i hi
        have hi2 := List.mem_range.mp hi
        have hfi := h2 i hi2
        revert hfi
        cases hj : json.getD i .null <;> simp [hj]

theorem base_equal_ok_true {a b : Arr} (h : base_equal a b = .ok true) :
    a.dataTypeA = b.dataTypeA ∧ a.lenA = b.lenA ∧ a.nullCountA = b.nullCountA := by
  unfold base_equal at h
  split_ifs at h with h1 h2 h3 h4 <;>
    first
      | (simp at h; done)
      | exact ⟨not_not.mp h1, not_not.mp h2, not_not.mp h3⟩

theorem base_equal_ok_true_bits {a b : Arr} (h : base_equal a b = .ok true)
    (hnc : a.nullCountA > 0) :
    ∃ nb onb, a.common.nullBitmap = some nb ∧ b.common.nullBitmap = some onb ∧
      ∀ i, i < a.lenA → getBit nb (i + a.offsetA) = getBit onb (i + b.offsetA) := by
  unfold base_equal at h
  split_ifs at h with h1 h2 h3 h4
  · exact absurd h (by simp)
  · exact absurd h (by simp)
  · exact absurd h (by simp)
  · cases hna : a.common.nullBitmap with
    | none =>
      rw [hna] at h
      cases hnb : b.common.nullBitmap <;> rw [hnb] at h <;> simp at h
    | some nb =>
      rw [hna] at h
      cases hnb : b.common.nullBitmap with
      | none => rw [hnb] at h; simp at h
      | some onb =>
        rw [hnb] at h
        refine ⟨nb, onb, rfl, rfl, fun i hi => ?_⟩
        have h2 : ∀ x, x < a.lenA → getBit nb (x + a.offsetA) = getBit onb (x + b.offsetA) := by
          simpa using h
        exact h2 i hi

theorem base_equal_valid_eq {a b : Arr} (h : base_equal a b = .ok true)
    (hwa : a.nullCountA = 0 → a.common.nullBitmap = none)
    (hwb : b.nullCountA = 0 → b.common.nullBitmap = none) :
    ∀ i, i < a.lenA → a.common.isValid i = b.common.isValid i := by
  intro i hi
  by_cases hnc : a.nullCountA > 0
  · obtain ⟨nb, onb, ha, hb, hbits⟩ := base_equal_ok_true_bits h hnc
    have hb2 := hbits i hi
    simp only [Arr.offsetA] at hb2
    simp [ArrayCommon.isValid, ha, hb, hb2]
  · have h0 : a.nullCountA = 0 := by omega
    have hb0 : b.nullCountA = 0 := by
      have := (base_equal_ok_true h).2.2
      omega
    simp [ArrayCommon.isValid, hwa h0, hwb hb0]

theorem all_range_congr {n : Nat} {f g : Nat → Bool}
    (h : ∀ i, i < n → f i = g i) : (List.range n).all f = (List.range n).all g := by
  induction n with
  | zero => rfl
  | succ m ih =>
    rw [List.range_succ, List.all_append, List.all_append]
    rw [ih (fun i hi => h i (Nat.lt_succ_of_lt hi))]
    simp [h m (Nat.lt_succ_self m)]

theorem sliceList_split (l : List Nat) (s m k : Nat) :
    sliceList l s (m + k) = sliceList l s m ++ sliceList l (s + m) k := by
  unfold sliceList
  rw [List.take_add]
  congr 1
  rw [List.drop_drop]

theorem sliceList_length_of_le (l : List Nat) (s n : Nat) (h : s + n ≤ l.length) :
    (sliceList l s n).length = n := by
  unfold sliceList
  rw [List.length_take, List.length_drop]
  omega

theorem bulk_eq_iff_slots (w : Nat) :
    ∀ (n offA offB : Nat) (va vb : List Nat),
      (offA + n) * w ≤ va.length → (offB + n) * w ≤ vb.length →
      (sliceList va (offA * w) (n * w) = sliceList vb (offB * w) (n * w) ↔
        ∀ i, i < n → sliceList va ((i + offA) * w) w = sliceList vb ((i + offB) * w) w) := by
  intro n
  induction n with
  | zero =>
    intro offA offB va vb _ _
    simp [sliceList]
  | succ m ih =>
    intro offA offB va vb hva hvb
    have eA : (offA + (m + 1)) * w = offA * w + (w + m * w) := by ring
    have eB : (offB + (m + 1)) * w = offB * w + (w + m * w) := by ring
    have hva2 : offA * w + (w + m * w) ≤ va.length := by rw [← eA]; exact hva
    have hvb2 : offB * w + (w + m * w) ≤ vb.length := by rw [← eB]; exact hvb
    have hsA : sliceList va (offA * w) ((m + 1) * w)
        = sliceList va (offA * w) w ++ sliceList va ((offA + 1) * w) (m * w) := by
      have e1 : (m + 1) * w = w + m * w := by ring
      have e2 : offA * w + w = (offA + 1) * w := by ring
      rw [e1, sliceList_split, e2]
    have hsB : sliceList vb (offB * w) ((m + 1) * w)
        = sliceList vb (offB * w) w ++ sliceList vb ((offB + 1) * w) (m * w) := by
      have e1 : (m + 1) * w = w + m * w := by ring
      have e2 : offB * w + w = (offB + 1) * w := by ring
      rw [e1, sliceList_split, e2]
    have hlenA : (sliceList va (offA * w) w).length = w := by
      apply sliceList_length_of_le
      calc offA * w + w ≤ offA * w + (w + m * w) := by omega
        _ ≤ va.length := hva2
    have hlenB : (sliceList vb (offB * w) w).length = w := by
      apply sliceList_length_of_le
      calc offB * w + w ≤ offB * w + (w + m * w) := by omega
        _ ≤ vb.length := hvb2
    have hihA : (offA + 1 + m) * w ≤ va.length := by
      have : (offA + 1 + m) * w = offA * w + (w + m * w) := by ring
      rw [this]; exact hva2
    have hihB : (offB + 1 + m) * w ≤ vb.length := by
      have : (offB + 1 + m) * w = offB * w + (w + m * w) := by ring
      rw [this]; exact hvb2
    have hih := ih (offA + 1) (offB + 1) va vb hihA hihB
    rw [hsA, hsB]
    constructor
    · intro h
      have hparts := List.append_inj h (hlenA.trans hlenB.symm)
      intro i hi
      rcases Nat.eq_zero_or_pos i with hz | hpos
      · subst hz
        simpa using hparts.1
      · have hi2 : i - 1 < m := by omega
        have := (hih.mp hparts.2) (i - 1) hi2
        have e3 : (i - 1 + (offA + 1)) = (i + offA) := by omega
        have e4 : (i - 1 + (offB + 1)) = (i + offB) := by omega
        rw [e3, e4] at this
        exact this
    · intro h
      have h0 := h 0 (by omega)
      simp only [Nat.zero_add] at h0
      have hrest : ∀ i, i < m →
          sliceList va ((i + (offA + 1)) * w) w = sliceList vb ((i + (offB + 1)) * w) w := by
        intro i hi
        have := h (i + 1) (by omega)
        have e3 : (i + 1 + offA) = (i + (offA + 1)) := by omega
        have e4 : (i + 1 + offB) = (i + (offB + 1)) := by omega
        rw [e3, e4] at this
        exact this
      rw [h0, hih.mpr hrest]

theorem resBind_ok (x : Bool) (f : Bool → Res Bool) :
    (Except.ok x : Res Bool) >>= f = f x := rfl

theorem bool_eq_of_iff {a b : Bool} (h : a = true ↔ b = true) : a = b := by
  cases a <;> cases b <;> simp_all

/-- Concrete arrays for the C3 counterexample: int32 arrays `[1]` and `[1, 2]`. -/
def c3_prim_a : Arr := .primitiveA
  { dataType := .int32, len := 1, offset := 0, nullCount := 0, nullBitmap := none }
  [1, 0, 0, 0]

def c3_prim_b : Arr := .primitiveA
  { dataType := .int32, len := 2, offset := 0, nullCount := 0, nullBitmap := none }
  [1, 0, 0, 0, 2, 0, 0, 0]

/-- C3 counterexample: whole-array equality is not in general the full-range
comparison from index 0.  On the length-1 array `[1]` versus the length-2 array
`[1, 2]`, `equals` returns `false` (base length check) while
`range_equals(other, 0, 1, 0)` compares only the first slot and returns `true`. -/
theorem c3_counterexample :
    Arr.equals c3_prim_a c3_prim_b = .ok false ∧
    Arr.range_equals c3_prim_a c3_prim_b 0 c3_prim_a.lenA 0 = .ok true := by
  constructor
  · simp [Arr.equals, base_equal, Arr.dataTypeA, Arr.lenA, Arr.nullCountA, Arr.common,
      c3_prim_a, c3_prim_b, Bind.bind, Except.bind, pure, Except.pure]
  · simp [Arr.range_equals, Arr.lenA, Arr.common, c3_prim_a, c3_prim_b, prim_value,
      ArrayCommon.isNull, ArrayCommon.isValid, sliceList, DataType.byteWidth]

theorem prim_duality (ca cb : ArrayCommon) (va vb : List Nat)
    (h : base_equal (.primitiveA ca va) (.primitiveA cb vb) = .ok true)
    (hwa : ca.nullCount = 0 → ca.nullBitmap = none)
    (hwb : cb.nullCount = 0 → cb.nullBitmap = none)
    (hba : (ca.offset + ca.len) * ca.dataType.byteWidth ≤ va.length)
    (hbb : (cb.offset + cb.len) * cb.dataType.byteWidth ≤ vb.length) :
    Arr.equals (.primitiveA ca va) (.primitiveA cb vb)
      = Arr.range_equals (.primitiveA ca va) (.primitiveA cb vb) 0 ca.len 0 := by
  obtain ⟨hdt0, hlen0, hncq0⟩ := base_equal_ok_true h
  have hdt : ca.dataType = cb.dataType := by simpa [Arr.dataTypeA] using hdt0
  have hlen : ca.len = cb.len := by simpa [Arr.lenA, Arr.common] using hlen0
  have hnceq : ca.nullCount = cb.nullCount := by
    simpa [Arr.nullCountA, Arr.common] using hncq0
  have hvalid : ∀ i, i < ca.len → ca.isValid i = cb.isValid i := by
    have := base_equal_valid_eq h
      (by simpa [Arr.nullCountA, Arr.common] using hwa)
      (by simpa [Arr.nullCountA, Arr.common] using hwb)
    simpa [Arr.lenA, Arr.common] using this
  rw [Arr.equals.eq_def]
  dsimp only
  rw [h, resBind_ok]
  rw [Arr.range_equals.eq_def]
  dsimp only
  simp only [Bool.not_true, Bool.false_eq_true, if_false, pure_bind]
  rw [if_pos (show 0 + (ca.len - 0) ≤ (Arr.primitiveA cb vb).lenA by
    simp [Arr.lenA, Arr.common]; omega)]
  rw [if_pos (show cb.dataType = ca.dataType from hdt.symm)]
  simp only [Arr.lenA, Arr.offsetA, Arr.common, Arr.buffer0, Arr.isValidA, bool_equal,
    Nat.sub_zero, Nat.zero_add]
  by_cases hbool : ca.dataType = .boolean
  · rw [if_pos hbool]
    apply congrArg Except.ok
    have hbool2 : cb.dataType = .boolean := hdt ▸ hbool
    apply all_range_congr
    intro i hi
    have hv := hvalid i hi
    simp only [ArrayCommon.isNull, prim_value, if_pos hbool, if_pos hbool2, hv]
    cases hb1 : cb.isValid i <;>
      cases hg1 : getBit va (i + ca.offset) <;>
      cases hg2 : getBit vb (i + cb.offset) <;> simp
  · rw [if_neg hbool]
    have hbool2 : ¬ cb.dataType = .boolean := by rw [← hdt]; exact hbool
    by_cases hncpos : ca.nullCount > 0
    · rw [if_pos hncpos]
      apply congrArg Except.ok
      apply all_range_congr
      intro i hi
      have hv := hvalid i hi
      simp only [ArrayCommon.isNull, prim_value, if_neg hbool, if_neg hbool2, hv, ← hdt]
      cases hb1 : cb.isValid i <;> simp
    · rw [if_neg hncpos]
      apply congrArg Except.ok
      have h0 : ca.nullCount = 0 := by omega
      have hb0 : cb.nullCount = 0 := by omega
      have hbmA := hwa h0
      have hbmB := hwb hb0
      have hbb2 : (cb.offset + ca.len) * ca.dataType.byteWidth ≤ vb.length := by
        rw [hdt, hlen]; exact hbb
      have hiff := bulk_eq_iff_slots ca.dataType.byteWidth ca.len ca.offset cb.offset
        va vb (by
          have e : (ca.offset + ca.len) * ca.dataType.byteWidth
              = (ca.offset + ca.len) * ca.dataType.byteWidth := rfl
          exact hba) hbb2
      apply bool_eq_of_iff
      rw [decide_eq_true_eq, List.all_eq_true]
      rw [hiff]
      constructor
      · intro hp x hx
        have hx2 := List.mem_range.mp hx
        have hslot := hp x hx2
        simp only [ArrayCommon.isNull, ArrayCommon.isValid, hbmA, hbmB, prim_value,
          if_neg hbool, if_neg hbool2, ← hdt]
        simp [hslot]
      · intro hp i hi
        have hx := hp i (List.mem_range.mpr hi)
        simp only [ArrayCommon.isNull, ArrayCommon.isValid, hbmA, hbmB, prim_value,
          if_neg hbool, if_neg hbool2, ← hdt] at hx
        simpa using hx

/-- C3 (amended): whole-array equality coincides with the full-range comparison
`range_equals(other, 0, len, 0)` for dictionary arrays (definitionally — that is
how `equals` is written) and for primitive arrays that pass the base
compatibility check, given the representation invariants (bitmap absent iff
`null_count == 0`, value buffers covering the logical window).  The duality does
not hold unconditionally for every variant: see the counterexample (length
mismatch makes `equals` false where the ranged comparison succeeds), and the
variable-length variants additionally compare offset spans at null slots only in
the whole-array path. -/
theorem c3_whole_range_duality :
    (∀ (c : ArrayCommon) (kt : DataType) (keys : List Nat) (dv b : Arr),
      Arr.equals (.dictA c kt keys dv) b =
        Arr.range_equals (.dictA c kt keys dv) b 0 (Arr.dictA c kt keys dv).lenA 0) ∧
    (∀ (ca cb : ArrayCommon) (va vb : List Nat),
      base_equal (.primitiveA ca va) (.primitiveA cb vb) = .ok true →
      (ca.nullCount = 0 → ca.nullBitmap = none) →
      (cb.nullCount = 0 → cb.nullBitmap = none) →
      (ca.offset + ca.len) * ca.dataType.byteWidth ≤ va.length →
      (cb.offset + cb.len) * cb.dataType.byteWidth ≤ vb.length →
      Arr.equals (.primitiveA ca va) (.primitiveA cb vb) =
        Arr.range_equals (.primitiveA ca va) (.primitiveA cb vb) 0
          (Arr.primitiveA ca va).lenA 0) := by
  constructor
  · intro c kt keys dv b
    rw [Arr.equals.eq_def]
  · intro ca cb va vb h hwa hwb hba hbb
    have hd := prim_duality ca cb va vb h hwa hwb hba hbb
    simpa [Arr.lenA, Arr.common] using hd

/-- Concrete inputs for the C3 witness: two base-compatible int32 arrays of
length 2 with one null slot each (values agree at the valid slot). -/
def c3w_ca : ArrayCommon :=
  { dataType := .int32, len := 2, offset := 0, nullCount := 1, nullBitmap := some [1] }

def c3w_cb : ArrayCommon :=
  { dataType := .int32, len := 2, offset := 0, nullCount := 1, nullBitmap := some [1] }

def c3w_va : List Nat := [1, 0, 0, 0, 9, 0, 0, 0]

def c3w_vb : List Nat := [1, 0, 0, 0, 7, 0, 0, 0]

theorem c3_whole_range_duality_witness :
    Arr.equals (.primitiveA c3w_ca c3w_va) (.primitiveA c3w_cb c3w_vb) =
      Arr.range_equals (.primitiveA c3w_ca c3w_va) (.primitiveA c3w_cb c3w_vb) 0
        (Arr.primitiveA c3w_ca c3w_va).lenA 0 :=
  c3_whole_range_duality.2 c3w_ca c3w_cb c3w_va c3w_vb
    (by decide) (by decide) (by decide) (by decide) (by decide)

/-- Byte position `k` of a primitive array's value buffer lies inside the slot of
some null index. -/
def prim_null_byte (c : ArrayCommon) (k : Nat) : Prop :=
  ∃ i, i < c.len ∧ c.isNull i = true ∧
    (i + c.offset) * c.dataType.byteWidth ≤ k ∧
    k < (i + c.offset) * c.dataType.byteWidth + c.dataType.byteWidth

instance (c : ArrayCommon) (k : Nat) : Decidable (prim_null_byte c k) := by
  unfold prim_null_byte
  infer_instance

/-- Byte position `k` of a variable-length array's value buffer lies inside the
span `[value_offset(i), value_offset(i+1))` of some null index `i`. -/
def bin_null_byte (c : ArrayCommon) (w : Nat) (offs : List Nat) (k : Nat) : Prop :=
  ∃ i, i < c.len ∧ c.isNull i = true ∧
    value_offset c w offs i ≤ k ∧ k < value_offset c w offs (i + 1)

instance (c : ArrayCommon) (w : Nat) (offs : List Nat) (k : Nat) :
    Decidable (bin_null_byte c w offs k) := by
  unfold bin_null_byte
  infer_instance

theorem sliceList_congr {va vb : List Nat} (hlen : va.length = vb.length)
    (s n : Nat)
    (hag : ∀ k, s ≤ k → k < s + n → k < va.length → va.getD k 0 = vb.getD k 0) :
    sliceList va s n = sliceList vb s n := by
  apply List.ext_getElem
  · simp [sliceList, hlen]
  · intro m h1 h2
    unfold sliceList at h1 ⊢
    simp only [List.length_take, List.length_drop] at h1
    have hm : m < n := lt_of_lt_of_le h1 (min_le_left _ _)
    have hml : m < va.length - s := lt_of_lt_of_le h1 (min_le_right _ _)
    rw [List.getElem_take, List.getElem_drop, List.getElem_take, List.getElem_drop]
    have hk : s + m < va.length := by omega
    have := hag (s + m) (by omega) (by omega) hk
    rwa [List.getD_eq_getElem va 0 hk, List.getD_eq_getElem vb 0 (by omega)] at this

theorem slot_disjoint {w i j off k : Nat}
    (hi1 : (i + off) * w ≤ k) (hi2 : k < (i + off) * w + w)
    (hj1 : (j + off) * w ≤ k) (hj2 : k < (j + off) * w + w) : i = j := by
  have d1 : k / w = i + off := by
    apply Nat.div_eq_of_lt_le hi1
    have e : (i + off + 1) * w = (i + off) * w + w := by ring
    rw [e]
    exact hi2
  have d2 : k / w = j + off := by
    apply Nat.div_eq_of_lt_le hj1
    have e : (j + off + 1) * w = (j + off) * w + w := by ring
    rw [e]
    exact hj2
  have hij : i + off = j + off := d1.symm.trans d2
  omega

theorem prim_nb_independent (ca : ArrayCommon) (va va' : List Nat) (b : Arr)
    (hbool : ca.dataType ≠ .boolean)
    (hwf : ca.nullCount = 0 → ca.nullBitmap = none)
    (hlen : va'.length = va.length)
    (hag : ∀ k, k < va.length → ¬ prim_null_byte ca k → va'.getD k 0 = va.getD k 0) :
    Arr.equals (.primitiveA ca va') b = Arr.equals (.primitiveA ca va) b := by
  have hbase : base_equal (.primitiveA ca va') b = base_equal (.primitiveA ca va) b := rfl
  rw [Arr.equals.eq_def, Arr.equals.eq_def]
  dsimp only
  rw [hbase]
  congr 1
  funext bres
  cases bres
  · rfl
  · simp only [Bool.not_true, Bool.false_eq_true, if_false, pure_bind]
    simp only [if_neg hbool]
    by_cases hnc : ca.nullCount > 0
    · simp only [if_pos hnc]
      apply congrArg
      apply all_range_congr
      intro i hi
      cases hvi : ca.isValid i with
      | false => simp
      | true =>
        have hslice : sliceList va' ((i + ca.offset) * ca.dataType.byteWidth)
              ca.dataType.byteWidth
            = sliceList va ((i + ca.offset) * ca.dataType.byteWidth)
              ca.dataType.byteWidth := by
          apply sliceList_congr hlen
          intro k hk1 hk2 hk3
          apply hag k (hlen ▸ hk3)
          rintro ⟨j, hj, hjn, hj1, hj2⟩
          have hij : i = j := slot_disjoint hk1 hk2 hj1 hj2
          rw [← hij] at hjn
          simp [ArrayCommon.isNull, hvi] at hjn
        rw [hslice]
    · simp only [if_neg hnc]
      apply congrArg
      have h0 : ca.nullCount = 0 := by omega
      have hbm := hwf h0
      have hbulk : sliceList va' (ca.offset * ca.dataType.byteWidth)
            (ca.len * ca.dataType.byteWidth)
          = sliceList va (ca.offset * ca.dataType.byteWidth)
            (ca.len * ca.dataType.byteWidth) := by
        apply sliceList_congr hlen
        intro k hk1 hk2 hk3
        apply hag k (hlen ▸ hk3)
        rintro ⟨j, hj, hjn, hj1, hj2⟩
        simp [ArrayCommon.isNull, ArrayCommon.isValid, hbm] at hjn
      rw [hbulk]

theorem bin_nb_independent (ca : ArrayCommon) (w : Nat) (offs va va' : List Nat) (b : Arr)
    (hwf : ca.nullCount = 0 → ca.nullBitmap = none)
    (hmono : ∀ j, j ≤ ca.len → ∀ i, i ≤ j →
      value_offset ca w offs i ≤ value_offset ca w offs j)
    (hlen : va'.length = va.length)
    (hag : ∀ k, k < va.length → ¬ bin_null_byte ca w offs k → va'.getD k 0 = va.getD k 0) :
    Arr.equals (.binaryA ca w offs va') b = Arr.equals (.binaryA ca w offs va) b := by
  have hnonull : ca.nullCount = 0 → ∀ k, k < va.length → va'.getD k 0 = va.getD k 0 := by
    intro h0 k hk
    apply hag k hk
    rintro ⟨j, hjlen, hjn, hj1, hj2⟩
    simp [ArrayCommon.isNull, ArrayCommon.isValid, hwf h0] at hjn
  have hbase : base_equal (.binaryA ca w offs va') b
      = base_equal (.binaryA ca w offs va) b := rfl
  rw [Arr.equals.eq_def, Arr.equals.eq_def]
  dsimp only
  rw [hbase]
  congr 1
  funext bres
  cases bres
  · rfl
  · cases b with
    | binaryA oc ow ooffs ovd =>
      simp only [Bool.not_true, Bool.false_eq_true, if_false, pure_bind]
      by_cases how : ow = w
      · simp only [if_pos how]
        by_cases hvoe : (!(value_offset_equal ca.offset oc.offset ca.len oc.len offs ooffs
            (value_offset_at ca w offs) (value_offset_at oc w ooffs))) = true
        · simp only [if_pos hvoe]
        · simp only [if_neg hvoe]
          by_cases hnc : ca.nullCount = 0
          · simp only [if_pos hnc]
            by_cases hoz : (ca.offset = 0 && oc.offset = 0) = true
            · simp only [if_pos hoz]
              have hb1 : sliceList va' 0 (value_offset ca w offs ca.len)
                  = sliceList va 0 (value_offset ca w offs ca.len) := by
                apply sliceList_congr hlen
                intro k hk1 hk2 hk3
                exact hnonull hnc k (hlen ▸ hk3)
              rw [hb1]
            · simp only [if_neg hoz]
              have hb2 : sliceList va' (value_offset ca w offs 0)
                    (value_offset ca w offs ca.len - value_offset ca w offs 0)
                  = sliceList va (value_offset ca w offs 0)
                    (value_offset ca w offs ca.len - value_offset ca w offs 0) := by
                apply sliceList_congr hlen
                intro k hk1 hk2 hk3
                exact hnonull hnc k (hlen ▸ hk3)
              rw [hb2]
          · simp only [if_neg hnc]
            apply congrArg
            apply all_range_congr
            intro i hi
            cases hni : ca.isNull i with
            | true => simp
            | false =>
              have hslice : sliceList va' (value_offset ca w offs i)
                    (value_offset ca w offs (i + 1) - value_offset ca w offs i)
                  = sliceList va (value_offset ca w offs i)
                    (value_offset ca w offs (i + 1) - value_offset ca w offs i) := by
                apply sliceList_congr hlen
                intro k hk1 hk2 hk3
                apply hag k (hlen ▸ hk3)
                rintro ⟨j, hjlen, hjn, hj1, hj2⟩
                have hvij : value_offset ca w offs i ≤ value_offset ca w offs (i + 1) :=
                  hmono (i + 1) (by omega) i (by omega)
                have hku : k < value_offset ca w offs (i + 1) := by omega
                rcases Nat.lt_trichotomy i j with hij | hij | hij
                · have : value_offset ca w offs (i + 1) ≤ value_offset ca w offs j :=
                    hmono j (by omega) (i + 1) (by omega)
                  omega
                · subst hij
                  rw [hni] at hjn
                  cases hjn
                · have : value_offset ca w offs (j + 1) ≤ value_offset ca w offs i :=
                    hmono i (by omega) (j + 1) (by omega)
                  omega
              rw [hslice]
      · simp only [if_neg how]
    | primitiveA c2 v2 => rfl
    | listA c2 w2 o2 ch2 => rfl
    | fixedSizeListA c2 s2 ch2 => rfl
    | stringA c2 w2 o2 v2 => rfl
    | fixedSizeBinaryA c2 e2 v2 => rfl
    | structA c2 cols2 => rfl
    | dictA c2 kt2 k2 dv2 => rfl
    | unionA c2 => rfl
    | nullA c2 => rfl

/-- Byte position `k` of a fixed-size-binary array's value buffer lies inside the
slot of some null index. -/
def fsb_null_byte (c : ArrayCommon) (elemW : Nat) (k : Nat) : Prop :=
  ∃ i, i < c.len ∧ c.isNull i = true ∧
    fixed_value_offset c elemW i ≤ k ∧ k < fixed_value_offset c elemW i + elemW

instance (c : ArrayCommon) (elemW : Nat) (k : Nat) : Decidable (fsb_null_byte c elemW k) := by
  unfold fsb_null_byte
  infer_instance

/-- Fixed-size-binary arrays for the C9 counterexample: length 1, elements 4
bytes wide, the single slot null in every array.  `c9x_va` and `c9x_va2` differ
only in the four bytes under that null slot. -/
def c9x_c : ArrayCommon :=
  { dataType := .fixedSizeBinaryT 4, len := 1, offset := 0, nullCount := 1,
    nullBitmap := some [0] }

def c9x_va : List Nat := [9, 9, 9, 9, 0, 0, 0, 0]

def c9x_va2 : List Nat := [5, 5, 5, 5, 0, 0, 0, 0]

def c9x_b : Arr := .fixedSizeBinaryA c9x_c 4 [9, 9, 9, 9, 0, 0, 0, 0]

/-- C9 counterexample: bytes underlying a null slot *can* influence an equality
result.  The two fixed-size-binary arrays built from `c9x_va` and `c9x_va2` are
identical except for the value bytes inside their single (null) slot, yet
`equals` against `c9x_b` answers `true` for one and `false` for the other: the
fixed-size-binary comparator's `value_offset_equal` fast path raw-compares the
first `(len + 1) * 4` value-buffer bytes with no regard for validity. -/
theorem c9_counterexample :
    c9x_va2.length = c9x_va.length ∧
    (∀ k, k < c9x_va.length → ¬ fsb_null_byte c9x_c 4 k →
      c9x_va2.getD k 0 = c9x_va.getD k 0) ∧
    Arr.equals (.fixedSizeBinaryA c9x_c 4 c9x_va) c9x_b = .ok true ∧
    Arr.equals (.fixedSizeBinaryA c9x_c 4 c9x_va2) c9x_b = .ok false := by
  refine ⟨by decide, by decide, by decide, by decide⟩

/-- C9 (amended): for non-boolean primitive arrays and for binary arrays — the
comparators the claim cites — bytes underlying null slots never influence a
whole-array equality result: replacing the value buffer by one of equal length
that agrees on every byte position not covered by a null slot's span leaves
`equals` against any array unchanged.  (The monotone-offsets hypothesis is the
offsets-table invariant of the data model; the bitmap hypothesis is the
`null_count == 0 ↔ no bitmap` invariant.)  The property does not extend to every
array kind: the fixed-size-binary comparator raw-compares a prefix of the value
buffers inside `value_offset_equal` regardless of validity, so bytes under a
null slot can flip its result — see the counterexample. -/
theorem c9_null_byte_independence :
    (∀ (ca : ArrayCommon) (va va' : List Nat) (b : Arr),
      ca.dataType ≠ .boolean →
      (ca.nullCount = 0 → ca.nullBitmap = none) →
      va'.length = va.length →
      (∀ k, k < va.length → ¬ prim_null_byte ca k → va'.getD k 0 = va.getD k 0) →
      Arr.equals (.primitiveA ca va') b = Arr.equals (.primitiveA ca va) b) ∧
    (∀ (ca : ArrayCommon) (w : Nat) (offs va va' : List Nat) (b : Arr),
      (ca.nullCount = 0 → ca.nullBitmap = none) →
      (∀ j, j ≤ ca.len → ∀ i, i ≤ j →
        value_offset ca w offs i ≤ value_offset ca w offs j) →
      va'.length = va.length →
      (∀ k, k < va.length → ¬ bin_null_byte ca w offs k → va'.getD k 0 = va.getD k 0) →
      Arr.equals (.binaryA ca w offs va') b = Arr.equals (.binaryA ca w offs va) b) :=
  ⟨fun ca va va' b h1 h2 h3 h4 => prim_nb_independent ca va va' b h1 h2 h3 h4,
   fun ca w offs va va' b h1 h2 h3 h4 => bin_nb_independent ca w offs va va' b h1 h2 h3 h4⟩

/-- Concrete inputs for the C9 witness: length-2 arrays with slot 1 null; the
primed buffers differ from the originals only inside the null slot's span. -/
def c9p_c : ArrayCommon :=
  { dataType := .int32, len := 2, offset := 0, nullCount := 1, nullBitmap := some [1] }

def c9p_va : List Nat := [1, 0, 0, 0, 9, 9, 9, 9]

def c9p_va' : List Nat := [1, 0, 0, 0, 5, 5, 5, 5]

def c9p_b : Arr := .primitiveA c9p_c [1, 0, 0, 0, 2, 2, 2, 2]

def c9b_c : ArrayCommon :=
  { dataType := .binaryT, len := 2, offset := 0, nullCount := 1, nullBitmap := some [1] }

def c9b_offs : List Nat := [0, 0, 0, 0, 2, 0, 0, 0, 5, 0, 0, 0]

def c9b_va : List Nat := [10, 11, 99, 99, 99]

def c9b_va' : List Nat := [10, 11, 7, 7, 7]

def c9b_b : Arr := .binaryA c9b_c 4 c9b_offs [10, 11, 1, 1, 1]

theorem c9_null_byte_independence_witness :
    Arr.equals (.primitiveA c9p_c c9p_va') c9p_b
      = Arr.equals (.primitiveA c9p_c c9p_va) c9p_b ∧
    Arr.equals (.binaryA c9b_c 4 c9b_offs c9b_va') c9b_b
      = Arr.equals (.binaryA c9b_c 4 c9b_offs c9b_va) c9b_b :=
  ⟨c9_null_byte_independence.1 c9p_c c9p_va c9p_va' c9p_b
      (by decide) (by decide) (by decide) (by decide),
   c9_null_byte_independence.2 c9b_c 4 c9b_offs c9b_va c9b_va' c9b_b
      (by decide) (by decide) (by decide) (by decide)⟩

end ArrowEqual
